import Mathlib

/-!
Verification of the reminder/recurrence scheduling core of the Todo
full-stack application.

The development shallowly embeds the scheduling subsystem:
  * `backend/reminder-agent/services/reminder_calculator.py`
    (`ReminderCalculator`: one-time / daily / weekly / monthly reminder
    calculation and the skip policy),
  * `backend/reminder-agent/services/duplicate_checker.py`
    (`DuplicateChecker.exists`, the idempotency lookup),
  * `backend/reminder-agent/jobs/reminder_processor.py` together with
    `models/agent_state.py` (the heartbeat state machine),
  * `phase-v/services/recurring-task-service/app/generator.py`
    (the event-driven next-occurrence generator).

Python `datetime` values are modelled as a Gregorian calendar date plus a
seconds-within-day component.  Chronological comparison of datetimes is
modelled through `DateTime.absSec`, the absolute number of seconds on the
proleptic Gregorian timeline (rata-die day number times 86400 plus the
seconds within the day), which is exactly the order Python's `datetime`
comparison operators implement.
-/

set_option maxRecDepth 8000

namespace TodoSched

/-- Gregorian calendar date: year (1-based), month (1-12), day (1-based),
mirroring Python `datetime.date`. -/
structure Date where
  year : Nat
  month : Nat
  day : Nat
deriving DecidableEq, Repr

/-- Gregorian leap-year test, as implemented by Python's `calendar.isleap`
and used by `datetime`. -/
def isLeap (y : Nat) : Bool :=
  y % 4 == 0 && (y % 100 != 0 || y % 400 == 0)

/-- Number of days in month `m` of year `y` (Python `calendar.monthrange`). -/
def daysInMonth (y m : Nat) : Nat :=
  if m == 2 then (if isLeap y then 29 else 28)
  else if m == 4 || m == 6 || m == 9 || m == 11 then 30
  else 31

/-- Days in the months of year `y` strictly before month `m`. -/
def daysBeforeMonth (y m : Nat) : Nat :=
  let base :=
    match m with
    | 1 => 0
    | 2 => 31
    | 3 => 59
    | 4 => 90
    | 5 => 120
    | 6 => 151
    | 7 => 181
    | 8 => 212
    | 9 => 243
    | 10 => 273
    | 11 => 304
    | _ => 334
  if 3 ≤ m ∧ isLeap y then base + 1 else base

/-- Number of leap years in `1, ..., y-1`. -/
def leapDaysBefore (y : Nat) : Nat :=
  (y - 1) / 4 - (y - 1) / 100 + (y - 1) / 400

/-- Rata-die day number of a date: day 1 is January 1 of year 1 in the
proleptic Gregorian calendar (the ordinal used by Python's
`date.toordinal`). -/
def rd (d : Date) : Nat :=
  365 * (d.year - 1) + leapDaysBefore d.year + daysBeforeMonth d.year d.month + d.day

/-- A structurally valid calendar date (what Python's `date` constructor
accepts, restricted to year at least 1). -/
def Date.Valid (d : Date) : Prop :=
  1 ≤ d.year ∧ 1 ≤ d.month ∧ d.month ≤ 12 ∧ 1 ≤ d.day ∧ d.day ≤ daysInMonth d.year d.month

instance (d : Date) : Decidable d.Valid := by
  unfold Date.Valid; infer_instance

/-- The day after `d` (Python `date + timedelta(days=1)`). -/
def nextDay (d : Date) : Date :=
  if d.day < daysInMonth d.year d.month then ⟨d.year, d.month, d.day + 1⟩
  else if d.month < 12 then ⟨d.year, d.month + 1, 1⟩
  else ⟨d.year + 1, 1, 1⟩

/-- The day before `d` (Python `date - timedelta(days=1)`). -/
def prevDay (d : Date) : Date :=
  if 1 < d.day then ⟨d.year, d.month, d.day - 1⟩
  else if 1 < d.month then ⟨d.year, d.month - 1, daysInMonth d.year (d.month - 1)⟩
  else ⟨d.year - 1, 12, 31⟩

/-- `d` shifted forward by `n` days (Python `date + timedelta(days=n)`). -/
def addDays (d : Date) : Nat → Date
  | 0 => d
  | n + 1 => nextDay (addDays d n)

/-- `d` shifted forward by `k` calendar months with the day-of-month clamped
to the target month's length, exactly the semantics of
`dateutil.relativedelta(months=k)`. -/
def addMonths (d : Date) (k : Nat) : Date :=
  let t := (d.month - 1) + k
  let y := d.year + t / 12
  let m := t % 12 + 1
  ⟨y, m, min d.day (daysInMonth y m)⟩

/-- Linear month index of a date (`year * 12 + month - 1`), used to speak
about "the following month" independently of year rollover. -/
def monthIdx (d : Date) : Nat :=
  d.year * 12 + (d.month - 1)

/-- Day-of-week with Monday = 0, ..., Sunday = 6, as returned by Python's
`date.weekday()`. -/
def weekday (d : Date) : Nat :=
  (rd d + 6) % 7

/-- Seconds per day. -/
def secondsPerDay : Nat := 86400

/-- A point in time: a calendar date plus the number of seconds elapsed
within that day, mirroring Python `datetime.datetime` (at one-second
resolution, which is the finest granularity the scheduling code
distinguishes). -/
structure DateTime where
  date : Date
  tod : Nat
deriving DecidableEq, Repr

/-- A valid datetime: a valid date and a time-of-day within the day. -/
def DateTime.Valid (t : DateTime) : Prop :=
  t.date.Valid ∧ t.tod < secondsPerDay

instance (t : DateTime) : Decidable t.Valid := by
  unfold DateTime.Valid; infer_instance

/-- Absolute position of a datetime on the timeline, in seconds.  Python's
`datetime` comparison operators order datetimes chronologically, which for
valid values is exactly the order of `absSec`. -/
def DateTime.absSec (t : DateTime) : Nat :=
  rd t.date * secondsPerDay + t.tod

/-- `t + timedelta(seconds=s)` for `s ≤ 86400` (the only shifts the source
performs forward are 60 and 61 seconds). -/
def DateTime.addSec (t : DateTime) (s : Nat) : DateTime :=
  if t.tod + s < secondsPerDay then ⟨t.date, t.tod + s⟩
  else ⟨nextDay t.date, t.tod + s - secondsPerDay⟩

/-- `t - timedelta(seconds=s)` for `s ≤ 86400` (the source subtracts 300
and 60 seconds). -/
def DateTime.subSec (t : DateTime) (s : Nat) : DateTime :=
  if s ≤ t.tod then ⟨t.date, t.tod - s⟩
  else ⟨prevDay t.date, t.tod + secondsPerDay - s⟩

theorem daysInMonth_pos (y m : Nat) : 1 ≤ daysInMonth y m := by
  unfold daysInMonth
  split
  · split <;> omega
  · split <;> omega

theorem daysInMonth_le_31 (y m : Nat) : daysInMonth y m ≤ 31 := by
  unfold daysInMonth
  split
  · split <;> omega
  · split <;> omega

theorem daysInMonth_feb (y : Nat) :
    daysInMonth y 2 = if isLeap y then 29 else 28 := by
  unfold daysInMonth
  norm_num

theorem daysInMonth_dec (y : Nat) : daysInMonth y 12 = 31 := by
  unfold daysInMonth
  norm_num

theorem daysBeforeMonth_succ (y m : Nat) (h1 : 1 ≤ m) (h2 : m ≤ 11) :
    daysBeforeMonth y (m + 1) = daysBeforeMonth y m + daysInMonth y m := by
  unfold daysBeforeMonth daysInMonth
  interval_cases m <;> by_cases hL : isLeap y <;> simp [hL]

theorem leapDaysBefore_succ (y : Nat) (h : 1 ≤ y) :
    leapDaysBefore (y + 1) = leapDaysBefore y + (if isLeap y then 1 else 0) := by
  unfold leapDaysBefore isLeap
  simp only [Nat.add_sub_cancel, Bool.and_eq_true, beq_iff_eq, Bool.or_eq_true, bne_iff_ne,
    ne_eq, decide_eq_true_eq]
  split <;> omega


@[simp] theorem Date.valid_mk (y m dd : Nat) :
    (⟨y, m, dd⟩ : Date).Valid ↔
      1 ≤ y ∧ 1 ≤ m ∧ m ≤ 12 ∧ 1 ≤ dd ∧ dd ≤ daysInMonth y m :=
  Iff.rfl

@[simp] theorem rd_mk (y m dd : Nat) :
    rd ⟨y, m, dd⟩ = 365 * (y - 1) + leapDaysBefore y + daysBeforeMonth y m + dd :=
  rfl

@[simp] theorem monthIdx_mk (y m dd : Nat) :
    monthIdx ⟨y, m, dd⟩ = y * 12 + (m - 1) :=
  rfl

theorem Valid_nextDay (d : Date) (h : d.Valid) : (nextDay d).Valid := by
  obtain ⟨hy, hm1, hm2, hd1, hd2⟩ := h
  unfold nextDay
  split
  · rw [Date.valid_mk]
    omega
  · split
    · have := daysInMonth_pos d.year (d.month + 1)
      rw [Date.valid_mk]
      omega
    · have := daysInMonth_pos (d.year + 1) 1
      rw [Date.valid_mk]
      omega

theorem rd_nextDay (d : Date) (h : d.Valid) : rd (nextDay d) = rd d + 1 := by
  obtain ⟨hy, hm1, hm2, hd1, hd2⟩ := h
  unfold nextDay
  split
  · simp [rd]
    omega
  · rename_i hlt
    split
    · rename_i hm12
      have hsucc := daysBeforeMonth_succ d.year d.month hm1 (by omega)
      simp [rd]
      omega
    · rename_i hm12
      have hm : d.month = 12 := by omega
      rw [hm] at hlt hd2
      have hdd : d.day = 31 := by
        have := daysInMonth_dec d.year
        omega
      have hsucc := leapDaysBefore_succ d.year hy
      by_cases hL : isLeap d.year <;>
        simp [rd, hm, hdd, daysBeforeMonth, hL] at hsucc ⊢ <;> omega

theorem addDays_spec (d : Date) (h : d.Valid) (n : Nat) :
    (addDays d n).Valid ∧ rd (addDays d n) = rd d + n := by
  induction n with
  | zero => exact ⟨h, rfl⟩
  | succ n ih =>
      refine ⟨Valid_nextDay _ ih.1, ?_⟩
      rw [addDays, rd_nextDay _ ih.1, ih.2]
      omega

theorem prevDay_spec (d : Date) (h : d.Valid) (hne : d ≠ ⟨1, 1, 1⟩) :
    (prevDay d).Valid ∧ rd (prevDay d) + 1 = rd d := by
  obtain ⟨hy, hm1, hm2, hd1, hd2⟩ := h
  unfold prevDay
  split
  · refine ⟨?_, by simp [rd]; omega⟩
    rw [Date.valid_mk]
    omega
  · split
    · rename_i hdle hmgt
      have hd : d.day = 1 := by omega
      have hsucc := daysBeforeMonth_succ d.year (d.month - 1) (by omega) (by omega)
      have hmm : d.month - 1 + 1 = d.month := by omega
      rw [hmm] at hsucc
      refine ⟨?_, ?_⟩
      · rw [Date.valid_mk]
        have := daysInMonth_pos d.year (d.month - 1)
        omega
      · simp [rd, hd]
        omega
    · rename_i hdle hmle
      have hd : d.day = 1 := by omega
      have hm : d.month = 1 := by omega
      have hy2 : 2 ≤ d.year := by
        rcases Nat.lt_or_ge d.year 2 with h1 | h1
        · exact absurd (by cases d; simp_all [Date.mk.injEq]; omega) hne
        · exact h1
      have hsucc := leapDaysBefore_succ (d.year - 1) (by omega)
      have hyy : d.year - 1 + 1 = d.year := by omega
      rw [hyy] at hsucc
      refine ⟨?_, ?_⟩
      · rw [Date.valid_mk]
        rw [daysInMonth_dec]
        omega
      · by_cases hL : isLeap (d.year - 1) <;>
          simp [rd, hd, hm, daysBeforeMonth, hL] at hsucc ⊢ <;> omega

/-- The first day of the month after the month of `d`. -/
def monthSuccFirst (d : Date) : Date :=
  if d.month < 12 then ⟨d.year, d.month + 1, 1⟩ else ⟨d.year + 1, 1, 1⟩

theorem monthSuccFirst_valid (d : Date) (h : d.Valid) : (monthSuccFirst d).Valid := by
  obtain ⟨hy, hm1, hm2, hd1, hd2⟩ := h
  unfold monthSuccFirst
  split
  · have := daysInMonth_pos d.year (d.month + 1)
    rw [Date.valid_mk]
    omega
  · have := daysInMonth_pos (d.year + 1) 1
    rw [Date.valid_mk]
    omega

theorem monthSuccFirst_day (d : Date) : (monthSuccFirst d).day = 1 := by
  unfold monthSuccFirst
  split <;> rfl

theorem monthIdx_monthSuccFirst (d : Date) (h : d.Valid) :
    monthIdx (monthSuccFirst d) = monthIdx d + 1 := by
  obtain ⟨hy, hm1, hm2, hd1, hd2⟩ := h
  unfold monthSuccFirst
  split <;> simp [monthIdx] <;> omega

theorem rd_lt_monthSuccFirst (d : Date) (h : d.Valid) : rd d < rd (monthSuccFirst d) := by
  obtain ⟨hy, hm1, hm2, hd1, hd2⟩ := h
  have hlastv : (⟨d.year, d.month, daysInMonth d.year d.month⟩ : Date).Valid := by
    rw [Date.valid_mk]
    have := daysInMonth_pos d.year d.month
    omega
  have hstep := rd_nextDay ⟨d.year, d.month, daysInMonth d.year d.month⟩ hlastv
  have heq : nextDay ⟨d.year, d.month, daysInMonth d.year d.month⟩ = monthSuccFirst d := by
    unfold nextDay monthSuccFirst
    rw [if_neg (by simp)]
  have hle : rd d ≤ rd ⟨d.year, d.month, daysInMonth d.year d.month⟩ := by
    simp [rd]
    omega
  rw [heq] at hstep
  omega

theorem monthIdx_inj (a b : Date) (ha1 : 1 ≤ a.month) (ha2 : a.month ≤ 12)
    (hb1 : 1 ≤ b.month) (hb2 : b.month ≤ 12) (h : monthIdx a = monthIdx b) :
    a.year = b.year ∧ a.month = b.month := by
  unfold monthIdx at h
  omega

theorem rd_lt_of_monthIdx_steps (k : Nat) :
    ∀ a b : Date, a.Valid → b.Valid → monthIdx b = monthIdx a + (k + 1) → rd a < rd b := by
  induction k with
  | zero =>
      intro a b ha hb h
      have h1 := rd_lt_monthSuccFirst a ha
      have h2 := monthIdx_monthSuccFirst a ha
      have h3 := monthSuccFirst_valid a ha
      have h4 := monthIdx_inj (monthSuccFirst a) b h3.2.1 h3.2.2.1 hb.2.1 hb.2.2.1 (by omega)
      have h5 : rd (monthSuccFirst a) ≤ rd b := by
        have hd1 := monthSuccFirst_day a
        obtain ⟨hyy, hmm⟩ := h4
        have hbday := hb.2.2.2.1
        simp [rd, hyy, hmm, hd1]
        omega
      omega
  | succ k ih =>
      intro a b ha hb h
      have h1 := rd_lt_monthSuccFirst a ha
      have h2 := ih (monthSuccFirst a) b (monthSuccFirst_valid a ha) hb
        (by have := monthIdx_monthSuccFirst a ha; omega)
      omega

theorem rd_lt_of_month_lt (a b : Date) (ha : a.Valid) (hb : b.Valid)
    (h : monthIdx a < monthIdx b) : rd a < rd b := by
  obtain ⟨k, hk⟩ : ∃ k, monthIdx b = monthIdx a + (k + 1) :=
    ⟨monthIdx b - monthIdx a - 1, by omega⟩
  exact rd_lt_of_monthIdx_steps k a b ha hb hk

theorem monthIdx_addMonths (d : Date) (k : Nat) (hm : 1 ≤ d.month) :
    monthIdx (addMonths d k) = monthIdx d + k := by
  unfold addMonths monthIdx
  simp
  omega

theorem addMonths_day (d : Date) (k : Nat) :
    (addMonths d k).day
      = min d.day (daysInMonth (addMonths d k).year (addMonths d k).month) := by
  unfold addMonths
  simp

theorem addMonths_month_bounds (d : Date) (k : Nat) :
    1 ≤ (addMonths d k).month ∧ (addMonths d k).month ≤ 12 ∧ d.year ≤ (addMonths d k).year := by
  unfold addMonths
  simp
  omega

theorem addMonths_valid (d : Date) (k : Nat) (hy : 1 ≤ d.year) (hd : 1 ≤ d.day) :
    (addMonths d k).Valid := by
  have hpos := daysInMonth_pos (addMonths d k).year (addMonths d k).month
  have hb := addMonths_month_bounds d k
  have hday := addMonths_day d k
  exact ⟨by omega, hb.1, hb.2.1, by omega, by omega⟩

@[simp] theorem secondsPerDay_eq : secondsPerDay = 86400 :=
  rfl

@[simp] theorem DateTime.valid_pair (d : Date) (s : Nat) :
    (⟨d, s⟩ : DateTime).Valid ↔ d.Valid ∧ s < secondsPerDay :=
  Iff.rfl

@[simp] theorem DateTime.absSec_mk (d : Date) (s : Nat) :
    (⟨d, s⟩ : DateTime).absSec = rd d * secondsPerDay + s :=
  rfl

theorem nextDay_ne_first (d : Date) (h : d.Valid) : nextDay d ≠ ⟨1, 1, 1⟩ := by
  obtain ⟨hy, hm1, hm2, hd1, hd2⟩ := h
  unfold nextDay
  split
  · simp [Date.mk.injEq]
    omega
  · split
    · simp [Date.mk.injEq]
      omega
    · simp [Date.mk.injEq]
      omega

theorem absSec_addSec (t : DateTime) (s : Nat) (h : t.Valid) (hs : s ≤ secondsPerDay) :
    (t.addSec s).Valid ∧ (t.addSec s).absSec = t.absSec + s := by
  obtain ⟨hd, ht⟩ := h
  have hspd : secondsPerDay = 86400 := rfl
  unfold DateTime.addSec
  split
  · rename_i hc
    refine ⟨⟨hd, by show t.tod + s < secondsPerDay; omega⟩, ?_⟩
    simp [DateTime.absSec]
    omega
  · rename_i hc
    have hnv := Valid_nextDay t.date hd
    have hrd := rd_nextDay t.date hd
    refine ⟨⟨hnv, by show t.tod + s - secondsPerDay < secondsPerDay; omega⟩, ?_⟩
    simp [DateTime.absSec, hrd]
    omega

theorem absSec_subSec (t : DateTime) (s : Nat) (h : t.Valid) (hs : s ≤ secondsPerDay)
    (hne : ¬(t.date = ⟨1, 1, 1⟩ ∧ t.tod < s)) :
    (t.subSec s).Valid ∧ (t.subSec s).absSec + s = t.absSec := by
  obtain ⟨hd, ht⟩ := h
  have hspd : secondsPerDay = 86400 := rfl
  unfold DateTime.subSec
  split
  · rename_i hc
    refine ⟨⟨hd, by show t.tod - s < secondsPerDay; omega⟩, ?_⟩
    simp [DateTime.absSec]
    omega
  · rename_i hc
    have hne2 : t.date ≠ ⟨1, 1, 1⟩ := fun hh => hne ⟨hh, by omega⟩
    have hp := prevDay_spec t.date hd hne2
    have hprd := hp.2
    refine ⟨⟨hp.1, by show t.tod + secondsPerDay - s < secondsPerDay; omega⟩, ?_⟩
    simp [DateTime.absSec]
    omega

theorem weekday_addDays (d : Date) (h : d.Valid) (n : Nat) :
    weekday (addDays d n) = (weekday d + n) % 7 := by
  unfold weekday
  rw [(addDays_spec d h n).2]
  omega

theorem weekday_lt_7 (d : Date) : weekday d < 7 := by
  unfold weekday
  omega

/-- Task snapshot consumed by the reminder agent
(`backend/reminder-agent/models/task.py`, restricted to the fields the
scheduling core reads). -/
structure Task where
  id : Nat
  completed : Bool
  due_date : Option DateTime
  reminder_time : Option DateTime
  recurrence_pattern : String
deriving DecidableEq, Repr

/-- Grace period after due date in days
(`config/constants.py`: `GRACE_PERIOD_DAYS = 7`). -/
def GRACE_PERIOD_DAYS : Nat := 7

/-- Tolerance window for duplicate detection in seconds
(`config/constants.py`: `DUPLICATE_CHECK_TOLERANCE_SECONDS = 60`). -/
def DUPLICATE_CHECK_TOLERANCE_SECONDS : Nat := 60

namespace ReminderCalculator

/-- `ReminderCalculator._calculate_one_time`: return the anchor if it is in
the future or within the five-minute (300 second) grace window behind
`now`, else `None`. -/
def calculate_one_time (reminder_time now : DateTime) : Option DateTime :=
  let grace_period := now.subSec 300
  if grace_period.absSec ≤ reminder_time.absSec then some reminder_time else none

/-- `ReminderCalculator._calculate_daily`: today at the anchor's
time-of-day if that is still in the future, otherwise tomorrow at that
time. -/
def calculate_daily (reminder_time now : DateTime) : DateTime :=
  let reminder_time_obj := reminder_time.tod
  let today_reminder : DateTime := ⟨now.date, reminder_time_obj⟩
  if now.absSec < today_reminder.absSec then today_reminder
  else ⟨addDays today_reminder.date 1, reminder_time_obj⟩

/-- `ReminderCalculator._calculate_weekly`: the next date whose weekday is
the anchor's weekday, at the anchor's time-of-day; when that is today and
the time already passed, one week later. -/
def calculate_weekly (reminder_time now : DateTime) : DateTime :=
  let target_weekday := weekday reminder_time.date
  let reminder_time_obj := reminder_time.tod
  let days_until_target : Nat :=
    (((target_weekday : Int) - (weekday now.date : Int)) % 7).toNat
  if days_until_target = 0 then
    let today_reminder : DateTime := ⟨now.date, reminder_time_obj⟩
    if now.absSec < today_reminder.absSec then today_reminder
    else ⟨addDays today_reminder.date 7, reminder_time_obj⟩
  else ⟨addDays now.date days_until_target, reminder_time_obj⟩

/-- Date placed for the month after `nowd` in
`ReminderCalculator._calculate_monthly`: same target day next month, or,
when the day does not exist there, the last day of that month (first day
of the month after next, minus one day). -/
def next_month_date (target_day : Nat) (nowd : Date) : Date :=
  let nm := addMonths nowd 1
  if target_day ≤ daysInMonth nm.year nm.month then ⟨nm.year, nm.month, target_day⟩
  else prevDay (addMonths ⟨nowd.year, nowd.month, 1⟩ 2)

/-- `ReminderCalculator._calculate_monthly`: the anchor's day-of-month in
the current month (falling back to the last day of the month when the day
does not exist), else the same placement in the next month. -/
def calculate_monthly (reminder_time now : DateTime) : DateTime :=
  let target_day := reminder_time.date.day
  let reminder_time_obj := reminder_time.tod
  let this_month_date : Date :=
    if target_day ≤ daysInMonth now.date.year now.date.month then
      ⟨now.date.year, now.date.month, target_day⟩
    else prevDay (addMonths ⟨now.date.year, now.date.month, 1⟩ 1)
  let this_month_reminder : DateTime := ⟨this_month_date, reminder_time_obj⟩
  if now.absSec < this_month_reminder.absSec then this_month_reminder
  else ⟨next_month_date target_day now.date, reminder_time_obj⟩

/-- `ReminderCalculator.calculate_reminder_datetime`: dispatch on
`recurrence_pattern`; `None` when no reminder time is set or the pattern is
unknown. -/
def calculate_reminder_datetime (task : Task) (now : DateTime) : Option DateTime :=
  match task.reminder_time with
  | none => none
  | some reminder_time =>
      if task.recurrence_pattern = "none" then calculate_one_time reminder_time now
      else if task.recurrence_pattern = "daily" then some (calculate_daily reminder_time now)
      else if task.recurrence_pattern = "weekly" then some (calculate_weekly reminder_time now)
      else if task.recurrence_pattern = "monthly" then some (calculate_monthly reminder_time now)
      else none

/-- `ReminderCalculator.should_skip_reminder`: skip when the task is
completed, or when it has a due date and `(now - due_date).days` (Python
floor-division of the elapsed seconds by 86400) exceeds
`GRACE_PERIOD_DAYS`. -/
def should_skip_reminder (task : Task) (now : DateTime) : Bool :=
  if task.completed then true
  else
    match task.due_date with
    | none => false
    | some due_date =>
        let days_overdue : Int :=
          ((now.absSec : Int) - (due_date.absSec : Int)) / 86400
        if (GRACE_PERIOD_DAYS : Int) < days_overdue then true else false

end ReminderCalculator

/-- Row of the `reminder_logs` table as read by the duplicate checker
(`models/reminder_log.py`: `task_id` and the computed occurrence
timestamp `reminder_datetime`). -/
structure ReminderLog where
  task_id : Nat
  reminder_datetime : DateTime
deriving DecidableEq, Repr

namespace DuplicateChecker

/-- `DuplicateChecker.exists`: look up prior log rows for the task whose
recorded timestamp lies within plus-or-minus the tolerance of the queried
occurrence; on any storage failure return `false` (fail-safe). The store
argument models the session query: `Except.error` is a raised exception,
`Except.ok` the rows of the task's log. -/
def existsRecord (store : Except Unit (List ReminderLog))
    (task_id : Nat) (reminder_datetime : DateTime) : Bool :=
  match store with
  | .error _ => false
  | .ok rows =>
      let start_window := reminder_datetime.subSec DUPLICATE_CHECK_TOLERANCE_SECONDS
      let end_window := reminder_datetime.addSec DUPLICATE_CHECK_TOLERANCE_SECONDS
      rows.any fun r =>
        r.task_id == task_id
          && start_window.absSec ≤ r.reminder_datetime.absSec
          && r.reminder_datetime.absSec ≤ end_window.absSec

end DuplicateChecker

namespace Generator

/-- `generator._calculate_daily` (recurring-task service): completion time
plus `interval` days, with the original due date's time-of-day when
available. -/
def calculate_daily (completed_at : DateTime) (interval : Nat)
    (original_due_date : Option DateTime) : DateTime :=
  let next_date : DateTime := ⟨addDays completed_at.date interval, completed_at.tod⟩
  match original_due_date with
  | some orig => ⟨next_date.date, orig.tod⟩
  | none => next_date

/-- Insertion of a value into a sorted list (ascending). -/
def sortedInsert (x : Nat) : List Nat → List Nat
  | [] => [x]
  | y :: ys => if x ≤ y then x :: y :: ys else y :: sortedInsert x ys

/-- Ascending insertion sort, the behaviour of Python's `sorted` on a list
of weekday numbers. -/
def sortNat : List Nat → List Nat
  | [] => []
  | x :: xs => sortedInsert x (sortNat xs)

/-- `generator._calculate_weekly` (recurring-task service): first strictly
later target weekday in the completion week; otherwise wrap to the first
target weekday of the next week, adding `(interval - 1)` extra weeks when
`interval > 1`; `None` when `days_of_week` is empty. -/
def calculate_weekly (completed_at : DateTime) (interval : Nat)
    (days_of_week : List Nat) (original_due_date : Option DateTime) : Option DateTime :=
  if days_of_week = [] then none
  else
    let sorted_days := sortNat days_of_week
    let current_weekday := weekday completed_at.date
    let found := sorted_days.find? fun day => decide (current_weekday < day)
    let next_date : DateTime :=
      match found with
      | some day => ⟨addDays completed_at.date (day - current_weekday), completed_at.tod⟩
      | none =>
          let days_ahead0 := (7 - current_weekday) + sorted_days.headD 0
          let days_ahead :=
            if 1 < interval then days_ahead0 + (interval - 1) * 7 else days_ahead0
          ⟨addDays completed_at.date days_ahead, completed_at.tod⟩
    some (match original_due_date with
      | some orig => ⟨next_date.date, orig.tod⟩
      | none => next_date)

/-- `generator._calculate_monthly` (recurring-task service): completion
time plus `interval` months (relativedelta), then the day replaced by
`day_of_month`, clamped to the last day of the target month when it does
not exist there; `None` when `day_of_month` is missing, falsy or out of
`1..31`. -/
def calculate_monthly (completed_at : DateTime) (interval : Nat)
    (day_of_month : Option Nat) (original_due_date : Option DateTime) : Option DateTime :=
  match day_of_month with
  | none => none
  | some dom =>
      if dom < 1 || 31 < dom then none
      else
        let nd := addMonths completed_at.date interval
        let next_date : Date :=
          if dom ≤ daysInMonth nd.year nd.month then ⟨nd.year, nd.month, dom⟩
          else
            let last_day := (prevDay (addMonths ⟨nd.year, nd.month, 1⟩ 1)).day
            ⟨nd.year, nd.month, min dom last_day⟩
        let tod :=
          match original_due_date with
          | some orig => orig.tod
          | none => completed_at.tod
        some ⟨next_date, tod⟩

end Generator

/-- `AgentStatus` enumeration (`models/agent_state.py`). -/
inductive AgentStatus
  | initialized
  | running
  | paused
  | error
deriving DecidableEq, Repr

/-- String value stored for each status (`AgentStatus(str, Enum)`). -/
def AgentStatus.value : AgentStatus → String
  | .initialized => "initialized"
  | .running => "running"
  | .paused => "paused"
  | .error => "error"

/-- `AgentState` heartbeat row (`models/agent_state.py`): health timestamp,
cumulative counters, and the current status string. -/
structure AgentState where
  last_check_at : DateTime
  tasks_processed : Nat := 0
  reminders_sent : Nat := 0
  errors_count : Nat := 0
  status : String
deriving DecidableEq, Repr

/-- `ReminderProcessor._update_agent_state`: create the single heartbeat
row if absent (counters left at their defaults), otherwise set the
timestamp and status and add this cycle's counts to the cumulative
counters. -/
def update_agent_state (st : Option AgentState) (pakistan_now : DateTime)
    (status : AgentStatus) (tasks_processed reminders_sent errors_count : Nat) : AgentState :=
  match st with
  | none => { last_check_at := pakistan_now, status := status.value }
  | some s =>
      { s with
        last_check_at := pakistan_now
        status := status.value
        tasks_processed := s.tasks_processed + tasks_processed
        reminders_sent := s.reminders_sent + reminders_sent
        errors_count := s.errors_count + errors_count }

/-- Outcome of one processing cycle of `ReminderProcessor.run`: either the
cycle body completes with this cycle's counts, or a critical exception
escapes the per-task handling. -/
inductive CycleOutcome
  | success (tasks_processed reminders_sent errors_count : Nat)
  | criticalFailure
deriving DecidableEq, Repr

namespace ReminderProcessor

/-- Heartbeat effect of one `ReminderProcessor.run` cycle: the state is
set to RUNNING at the start; on completion it is updated again with the
cycle's counts and status RUNNING; on a critical error it is updated with
status ERROR and one error counted. -/
def run (st : Option AgentState) (now : DateTime) (outcome : CycleOutcome) : AgentState :=
  let st1 := update_agent_state st now .running 0 0 0
  match outcome with
  | .success tp rs ec => update_agent_state (some st1) now .running tp rs ec
  | .criticalFailure => update_agent_state (some st1) now .error 0 0 1

/-- Status values written during a successful cycle, in order. -/
def statusTrace (outcome : CycleOutcome) : List String :=
  match outcome with
  | .success _ _ _ => [AgentStatus.running.value, AgentStatus.running.value]
  | .criticalFailure => [AgentStatus.running.value, AgentStatus.error.value]

end ReminderProcessor

theorem prevDay_first (a : Date) (ha : a.Valid) (hd : a.day = 1) (hidx : 13 ≤ monthIdx a) :
    (prevDay a).Valid ∧ monthIdx (prevDay a) + 1 = monthIdx a ∧ 1 ≤ (prevDay a).day := by
  obtain ⟨hy, hm1, hm2, hd1, hd2⟩ := ha
  unfold prevDay
  rw [if_neg (by omega)]
  split
  · rename_i hmgt
    have := daysInMonth_pos a.year (a.month - 1)
    refine ⟨?_, ?_, ?_⟩
    · rw [Date.valid_mk]
      omega
    · simp only [monthIdx_mk]
      unfold monthIdx
      omega
    · show 1 ≤ daysInMonth a.year (a.month - 1)
      omega
  · rename_i hmle
    have hm : a.month = 1 := by omega
    have hy2 : 2 ≤ a.year := by
      unfold monthIdx at hidx
      omega
    refine ⟨?_, ?_, ?_⟩
    · rw [Date.valid_mk]
      rw [daysInMonth_dec]
      omega
    · simp only [monthIdx_mk]
      unfold monthIdx
      omega
    · show (1 : Nat) ≤ 31
      omega

theorem addMonths_first_day (y m k : Nat) :
    (addMonths ⟨y, m, 1⟩ k).day = 1 := by
  have hday := addMonths_day ⟨y, m, 1⟩ k
  have := daysInMonth_pos (addMonths ⟨y, m, 1⟩ k).year (addMonths ⟨y, m, 1⟩ k).month
  simp at hday
  omega

theorem prevDay_addMonths_one (y m : Nat) (hy : 1 ≤ y) (hm1 : 1 ≤ m) (hm2 : m ≤ 12) :
    prevDay (addMonths ⟨y, m, 1⟩ 1) = ⟨y, m, daysInMonth y m⟩ := by
  have ht : (m - 1) + 1 = m := by omega
  rcases Nat.lt_or_ge m 12 with hlt | hge
  · have hdiv : m / 12 = 0 := by omega
    have hmod : m % 12 = m := by omega
    have hpos := daysInMonth_pos y (m + 1)
    have hA : addMonths ⟨y, m, 1⟩ 1 = ⟨y, m + 1, 1⟩ := by
      simp only [addMonths, ht, hdiv, hmod]
      rw [Nat.add_zero]
      have hmin : min 1 (daysInMonth y (m + 1)) = 1 := by omega
      rw [hmin]
    rw [hA]
    unfold prevDay
    rw [if_neg (by simp), if_pos (by simp; omega)]
    simp
  · have hm : m = 12 := by omega
    subst hm
    have hA : addMonths ⟨y, 12, 1⟩ 1 = ⟨y + 1, 1, 1⟩ := by
      have hpos := daysInMonth_pos (y + 1) 1
      simp [addMonths, Date.mk.injEq]
      omega
    rw [hA]
    unfold prevDay
    rw [if_neg (by simp), if_neg (by simp)]
    rw [daysInMonth_dec]
    simp

namespace ReminderCalculator

theorem calculate_one_time_char (reminder_time now : DateTime) (hn : now.Valid)
    (hedge : ¬(now.date = ⟨1, 1, 1⟩ ∧ now.tod < 300)) :
    calculate_one_time reminder_time now =
      if now.absSec ≤ reminder_time.absSec + 300 then some reminder_time else none := by
  have hsub := absSec_subSec now 300 hn (by simp) hedge
  unfold calculate_one_time
  split
  · rw [if_pos (by omega)]
  · rw [if_neg (by omega)]

theorem calculate_daily_gt (reminder_time now : DateTime) (hn : now.Valid) :
    now.absSec < (calculate_daily reminder_time now).absSec := by
  obtain ⟨hd, ht⟩ := hn
  have hspd : secondsPerDay = 86400 := rfl
  simp only [calculate_daily]
  split
  · assumption
  · have hadd := (addDays_spec now.date hd 1).2
    simp only [DateTime.absSec_mk, DateTime.absSec, hadd, secondsPerDay_eq] at *
    omega

theorem calculate_weekly_gt (reminder_time now : DateTime) (hn : now.Valid) :
    now.absSec < (calculate_weekly reminder_time now).absSec := by
  obtain ⟨hd, ht⟩ := hn
  simp only [calculate_weekly]
  set e : Int := ((weekday reminder_time.date : Int) - (weekday now.date : Int)) % 7 with he
  have he0 : 0 ≤ e := Int.emod_nonneg _ (by norm_num)
  have he7 : e < 7 := Int.emod_lt_of_pos _ (by norm_num)
  split
  · split
    · assumption
    · have hadd := (addDays_spec now.date hd 7).2
      simp only [DateTime.absSec_mk, DateTime.absSec, hadd, secondsPerDay_eq] at *
      omega
  · rename_i hne0
    have h1 : 1 ≤ e.toNat := by omega
    have hadd := (addDays_spec now.date hd e.toNat).2
    simp only [DateTime.absSec_mk, DateTime.absSec, hadd, secondsPerDay_eq] at *
    omega

theorem next_month_date_spec (target_day : Nat) (nowd : Date)
    (h : nowd.Valid) (htd : 1 ≤ target_day) :
    (next_month_date target_day nowd).Valid ∧
      monthIdx (next_month_date target_day nowd) = monthIdx nowd + 1 := by
  obtain ⟨hy, hm1, hm2, hd1, hd2⟩ := h
  simp only [next_month_date]
  split
  · rename_i hle
    have hb := addMonths_month_bounds nowd 1
    have hI := monthIdx_addMonths nowd 1 hm1
    constructor
    · rw [Date.valid_mk]
      exact ⟨by omega, hb.1, hb.2.1, htd, hle⟩
    · simp only [monthIdx_mk]
      unfold monthIdx at hI ⊢
      omega
  · rename_i hgt
    have hidx2 : monthIdx (addMonths ⟨nowd.year, nowd.month, 1⟩ 2)
        = monthIdx nowd + 2 := by
      have := monthIdx_addMonths ⟨nowd.year, nowd.month, 1⟩ 2 (by simpa using hm1)
      unfold monthIdx at this ⊢
      simp at this
      omega
    have hval2 : (addMonths ⟨nowd.year, nowd.month, 1⟩ 2).Valid :=
      addMonths_valid _ 2 (by simpa using hy) (by simp)
    have hfd := addMonths_first_day nowd.year nowd.month 2
    have hmin : 13 ≤ monthIdx (addMonths ⟨nowd.year, nowd.month, 1⟩ 2) := by
      unfold monthIdx at hidx2 ⊢
      omega
    have hp := prevDay_first _ hval2 hfd hmin
    exact ⟨hp.1, by omega⟩

theorem calculate_monthly_gt (reminder_time now : DateTime)
    (hrd1 : 1 ≤ reminder_time.date.day) (hn : now.Valid) :
    now.absSec < (calculate_monthly reminder_time now).absSec := by
  obtain ⟨hd, ht⟩ := hn
  rw [secondsPerDay_eq] at ht
  have hnm := next_month_date_spec reminder_time.date.day now.date hd hrd1
  have hlt : rd now.date < rd (next_month_date reminder_time.date.day now.date) :=
    rd_lt_of_month_lt now.date _ hd hnm.1 (by omega)
  simp only [calculate_monthly]
  split <;> split
  · assumption
  · simp only [DateTime.absSec_mk, DateTime.absSec, secondsPerDay_eq]
    omega
  · assumption
  · simp only [DateTime.absSec_mk, DateTime.absSec, secondsPerDay_eq]
    omega

end ReminderCalculator

/-- C1: for every recurrence rule and every reference time `now`, whenever
`ReminderCalculator.calculate_reminder_datetime` returns a timestamp, that
timestamp is at least `now` or within the five-minute (300 second) grace
window before `now`: it is never in the past outside the grace window. -/
theorem C1_calculator_result_not_past (task : Task) (reminder_time now r : DateTime)
    (hta : task.reminder_time = some reminder_time)
    (hav : reminder_time.Valid) (hn : now.Valid)
    (hedge : ¬(now.date = ⟨1, 1, 1⟩ ∧ now.tod < 300))
    (hr : ReminderCalculator.calculate_reminder_datetime task now = some r) :
    now.absSec ≤ r.absSec + 300 := by
  unfold ReminderCalculator.calculate_reminder_datetime at hr
  rw [hta] at hr
  dsimp only at hr
  by_cases h0 : task.recurrence_pattern = "none"
  · rw [if_pos h0] at hr
    rw [ReminderCalculator.calculate_one_time_char reminder_time now hn hedge] at hr
    by_cases hcond : now.absSec ≤ reminder_time.absSec + 300
    · rw [if_pos hcond, Option.some.injEq] at hr
      subst hr
      omega
    · rw [if_neg hcond] at hr
      cases hr
  · rw [if_neg h0] at hr
    by_cases h1 : task.recurrence_pattern = "daily"
    · rw [if_pos h1, Option.some.injEq] at hr
      subst hr
      have := ReminderCalculator.calculate_daily_gt reminder_time now hn
      omega
    · rw [if_neg h1] at hr
      by_cases h2 : task.recurrence_pattern = "weekly"
      · rw [if_pos h2, Option.some.injEq] at hr
        subst hr
        have := ReminderCalculator.calculate_weekly_gt reminder_time now hn
        omega
      · rw [if_neg h2] at hr
        by_cases h3 : task.recurrence_pattern = "monthly"
        · rw [if_pos h3, Option.some.injEq] at hr
          subst hr
          have := ReminderCalculator.calculate_monthly_gt reminder_time now
            hav.1.2.2.2.1 hn
          omega
        · rw [if_neg h3] at hr
          cases hr

/-- Witness for C1: a daily task whose reminder already passed today gets
tomorrow's occurrence, which is not in the past. -/
theorem C1_calculator_result_not_past_witness :
    (⟨⟨2025, 1, 15⟩, 36000⟩ : DateTime).absSec
      ≤ (⟨⟨2025, 1, 16⟩, 32400⟩ : DateTime).absSec + 300 :=
  C1_calculator_result_not_past
    ⟨1, false, none, some ⟨⟨2025, 1, 15⟩, 32400⟩, "daily"⟩
    ⟨⟨2025, 1, 15⟩, 32400⟩ ⟨⟨2025, 1, 15⟩, 36000⟩ ⟨⟨2025, 1, 16⟩, 32400⟩
    rfl (by decide) (by decide) (by decide) (by decide)

/-- C6: the one-time branch returns the anchor unchanged exactly when the
anchor is not more than five minutes (300 seconds) in the past relative to
`now`, and `None` (missed) otherwise. -/
theorem C6_one_time_grace (reminder_time now : DateTime) (hn : now.Valid)
    (hedge : ¬(now.date = ⟨1, 1, 1⟩ ∧ now.tod < 300)) :
    ReminderCalculator.calculate_one_time reminder_time now =
      if now.absSec ≤ reminder_time.absSec + 300 then some reminder_time else none :=
  ReminderCalculator.calculate_one_time_char reminder_time now hn hedge

/-- Witness for C6: an anchor three minutes in the past is still returned. -/
theorem C6_one_time_grace_witness :
    ReminderCalculator.calculate_one_time ⟨⟨2025, 1, 15⟩, 50400⟩ ⟨⟨2025, 1, 15⟩, 50580⟩ =
      if (⟨⟨2025, 1, 15⟩, 50580⟩ : DateTime).absSec
          ≤ (⟨⟨2025, 1, 15⟩, 50400⟩ : DateTime).absSec + 300
        then some ⟨⟨2025, 1, 15⟩, 50400⟩ else none :=
  C6_one_time_grace ⟨⟨2025, 1, 15⟩, 50400⟩ ⟨⟨2025, 1, 15⟩, 50580⟩ (by decide) (by decide)

/-- C7: for every task id and occurrence time, a failing occurrence-log
lookup makes `DuplicateChecker.exists` return `false` (not yet fired)
instead of propagating the exception. -/
theorem C7_duplicate_check_fail_open (e : Unit) (task_id : Nat) (reminder_datetime : DateTime) :
    DuplicateChecker.existsRecord (.error e) task_id reminder_datetime = false :=
  rfl

/-- C10: a task whose recurrence pattern is daily, weekly or monthly and
whose reminder time is set always receives some reminder datetime:
`calculate_reminder_datetime` is never `None` for it. -/
theorem C10_recurring_never_none (task : Task) (now reminder_time : DateTime)
    (hta : task.reminder_time = some reminder_time)
    (hp : task.recurrence_pattern = "daily" ∨ task.recurrence_pattern = "weekly" ∨
      task.recurrence_pattern = "monthly") :
    (ReminderCalculator.calculate_reminder_datetime task now).isSome = true := by
  unfold ReminderCalculator.calculate_reminder_datetime
  rw [hta]
  rcases hp with h | h | h <;> rw [h] <;> rfl

/-- Witness for C10: a weekly task with a reminder time set gets a
reminder datetime. -/
theorem C10_recurring_never_none_witness :
    (ReminderCalculator.calculate_reminder_datetime
      ⟨1, false, none, some ⟨⟨2025, 1, 13⟩, 32400⟩, "weekly"⟩
      ⟨⟨2025, 1, 15⟩, 36000⟩).isSome = true :=
  C10_recurring_never_none
    ⟨1, false, none, some ⟨⟨2025, 1, 13⟩, 32400⟩, "weekly"⟩
    ⟨⟨2025, 1, 15⟩, 36000⟩ ⟨⟨2025, 1, 13⟩, 32400⟩ rfl (Or.inr (Or.inl rfl))

/-- C2: with one occurrence for `task_id` recorded at `T`, a duplicate
check at any queried occurrence time within `T` plus or minus 60 seconds
(inclusive) reports it as already fired, and a check at `T + 61` seconds
(no other record in the window) reports it as not fired. -/
theorem C2_duplicate_window (task_id : Nat) (T q : DateTime)
    (hT : T.Valid) (hq : q.Valid)
    (hqe : ¬(q.date = ⟨1, 1, 1⟩ ∧ q.tod < 60)) :
    ((T.absSec ≤ q.absSec + 60 ∧ q.absSec ≤ T.absSec + 60) →
      DuplicateChecker.existsRecord (.ok [⟨task_id, T⟩]) task_id q = true) ∧
    DuplicateChecker.existsRecord (.ok [⟨task_id, T⟩]) task_id (T.addSec 61) = false := by
  have htol : DUPLICATE_CHECK_TOLERANCE_SECONDS = 60 := rfl
  constructor
  · rintro ⟨h1, h2⟩
    have hsub := absSec_subSec q 60 hq (by simp) hqe
    have hadd := absSec_addSec q 60 hq (by simp)
    simp only [DuplicateChecker.existsRecord, htol, List.any_cons, List.any_nil,
      Bool.or_false, beq_self_eq_true, Bool.true_and, Bool.and_eq_true, decide_eq_true_eq]
    omega
  · have haddT := absSec_addSec T 61 hT (by simp)
    have hedge2 : ¬((T.addSec 61).date = ⟨1, 1, 1⟩ ∧ (T.addSec 61).tod < 60) := by
      unfold DateTime.addSec
      split
      · rintro ⟨h1, h2⟩
        have h3 : T.tod + 61 < 60 := h2
        omega
      · rintro ⟨h1, h2⟩
        exact nextDay_ne_first T.date hT.1 h1
    have hsub2 := absSec_subSec (T.addSec 61) 60 haddT.1 (by simp) hedge2
    have hfalse : ¬ ((T.addSec 61).subSec 60).absSec ≤ T.absSec := by omega
    simp only [DuplicateChecker.existsRecord, htol, List.any_cons, List.any_nil,
      Bool.or_false, beq_self_eq_true, Bool.true_and, Bool.and_eq_true, decide_eq_true_eq]
    rw [decide_eq_false hfalse, Bool.false_and]

/-- Witness for C2: a record at 08:20:00 is found by a query at 08:21:00
(plus 60 seconds) and missed by a query at 08:21:01 (plus 61 seconds). -/
theorem C2_duplicate_window_witness :
    ((⟨⟨2025, 1, 15⟩, 30000⟩ : DateTime).absSec
        ≤ (⟨⟨2025, 1, 15⟩, 30060⟩ : DateTime).absSec + 60 ∧
      (⟨⟨2025, 1, 15⟩, 30060⟩ : DateTime).absSec
        ≤ (⟨⟨2025, 1, 15⟩, 30000⟩ : DateTime).absSec + 60 →
      DuplicateChecker.existsRecord (.ok [⟨5, ⟨⟨2025, 1, 15⟩, 30000⟩⟩]) 5
        ⟨⟨2025, 1, 15⟩, 30060⟩ = true) ∧
    DuplicateChecker.existsRecord (.ok [⟨5, ⟨⟨2025, 1, 15⟩, 30000⟩⟩]) 5
      ((⟨⟨2025, 1, 15⟩, 30000⟩ : DateTime).addSec 61) = false :=
  C2_duplicate_window 5 ⟨⟨2025, 1, 15⟩, 30000⟩ ⟨⟨2025, 1, 15⟩, 30060⟩
    (by decide) (by decide) (by decide)

/-- C5 counterexample: a task whose due date lies seven days plus one hour
before `now` has `now - due_date` exceeding the seven-day grace period, yet
`should_skip_reminder` does not exclude it, refuting the claimed
equivalence. -/
theorem C5_graceGate_counterexample :
    ReminderCalculator.should_skip_reminder
        ⟨1, false, some ⟨⟨2025, 1, 8⟩, 0⟩, none, "daily"⟩ ⟨⟨2025, 1, 15⟩, 3600⟩ = false ∧
      ((⟨⟨2025, 1, 15⟩, 3600⟩ : DateTime).absSec : Int)
          - ((⟨⟨2025, 1, 8⟩, 0⟩ : DateTime).absSec : Int) > 7 * 86400 := by
  refine ⟨by decide, by decide⟩

/-- C5 amended: `should_skip_reminder` returns true exactly when the task
is completed, or it has a due date and `now - due_date` is at least eight
full days (691200 seconds) — the Python whole-day count
`(now - due_date).days` must exceed seven, so an overdue amount strictly
between seven and eight days is not yet excluded. -/
theorem C5_graceGate_amended (task : Task) (now : DateTime) :
    ReminderCalculator.should_skip_reminder task now = true ↔
      (task.completed = true ∨ ∃ due_date, task.due_date = some due_date ∧
        (now.absSec : Int) - (due_date.absSec : Int) ≥ 8 * 86400) := by
  have hg : (GRACE_PERIOD_DAYS : Int) = 7 := rfl
  unfold ReminderCalculator.should_skip_reminder
  by_cases hc : task.completed
  · simp [hc]
  · cases htd : task.due_date with
    | none => simp [hc, htd]
    | some due_date =>
        simp only [hc, htd, Bool.false_eq_true, if_false, hg, Option.some.injEq]
        constructor
        · intro h
          split at h
          · rename_i hlt
            exact Or.inr ⟨due_date, rfl, by omega⟩
          · cases h
        · rintro (h | ⟨d, hd, hge⟩)
          · cases h
          · subst hd
            rw [if_pos (by omega)]

/-- C9 counterexample: after a successfully completed processing cycle the
heartbeat status is the string value of `AgentStatus.RUNNING`, not an Idle
state, and no `AgentStatus` value at all is named "idle", refuting the
claimed Idle - Running - Idle transition. -/
theorem C9_heartbeat_counterexample :
    (ReminderProcessor.run (some ⟨⟨⟨2025, 1, 15⟩, 0⟩, 10, 5, 1, "initialized"⟩)
        ⟨⟨2025, 1, 15⟩, 3600⟩ (.success 3 2 0)).status = "running" ∧
      ("running" : String) ≠ "idle" ∧
      AgentStatus.initialized.value ≠ "idle" ∧ AgentStatus.running.value ≠ "idle" ∧
      AgentStatus.paused.value ≠ "idle" ∧ AgentStatus.error.value ≠ "idle" :=
  ⟨rfl, by decide, by decide, by decide, by decide, by decide⟩

/-- C9 amended: every cycle first sets the heartbeat status to Running; at
the end of a completed cycle the heartbeat is updated with cumulative
counts but the status is set to Running again (the status enumeration has
no Idle value, only initialized, running, paused and error), and after a
critical failure the status is Error with one error added. -/
theorem C9_heartbeat_amended (s : AgentState) (now : DateTime) (tp rs ec : Nat) :
    ReminderProcessor.statusTrace (.success tp rs ec)
        = [AgentStatus.running.value, AgentStatus.running.value] ∧
      ReminderProcessor.run (some s) now (.success tp rs ec) =
        { s with
          last_check_at := now
          status := AgentStatus.running.value
          tasks_processed := s.tasks_processed + tp
          reminders_sent := s.reminders_sent + rs
          errors_count := s.errors_count + ec } ∧
      (ReminderProcessor.run (some s) now .criticalFailure).status
          = AgentStatus.error.value ∧
      (ReminderProcessor.run (some s) now .criticalFailure).errors_count
          = s.errors_count + 1 := by
  obtain ⟨lc, tp0, rs0, ec0, st0⟩ := s
  refine ⟨rfl, ?_, rfl, ?_⟩
  · simp [ReminderProcessor.run, update_agent_state, AgentState.mk.injEq]
  · simp [ReminderProcessor.run, update_agent_state]

namespace Generator

theorem calculate_monthly_spec (completed_at : DateTime) (k dom : Nat)
    (orig : Option DateTime)
    (hy : 1 ≤ completed_at.date.year) (hm1 : 1 ≤ completed_at.date.month)
    (hd1 : 1 ≤ completed_at.date.day) (h1 : 1 ≤ dom) (h31 : dom ≤ 31) :
    ∃ r, calculate_monthly completed_at k (some dom) orig = some r ∧
      monthIdx r.date = monthIdx completed_at.date + k ∧
      r.date.day = min dom (daysInMonth r.date.year r.date.month) ∧
      1 ≤ r.date.year ∧ 1 ≤ r.date.month ∧ r.date.month ≤ 12 ∧ 1 ≤ r.date.day := by
  have hb := addMonths_month_bounds completed_at.date k
  have hI := monthIdx_addMonths completed_at.date k hm1
  have hpos := daysInMonth_pos (addMonths completed_at.date k).year
    (addMonths completed_at.date k).month
  simp only [calculate_monthly]
  rw [if_neg (by simp; omega)]
  split
  · rename_i hle
    refine ⟨_, rfl, ?_, ?_, ?_, ?_, ?_, ?_⟩
    · simp only [monthIdx_mk]
      unfold monthIdx at hI ⊢
      omega
    · show dom = min dom (daysInMonth _ _)
      simp only []
      omega
    · show 1 ≤ (addMonths completed_at.date k).year
      omega
    · exact hb.1
    · exact hb.2.1
    · exact h1
  · rename_i hgt
    rw [prevDay_addMonths_one (addMonths completed_at.date k).year
      (addMonths completed_at.date k).month (by omega) hb.1 hb.2.1]
    refine ⟨_, rfl, ?_, ?_, ?_, ?_, ?_, ?_⟩
    · simp only [monthIdx_mk]
      unfold monthIdx at hI ⊢
      omega
    · show min dom _ = min dom (daysInMonth _ _)
      simp only []
    · show 1 ≤ (addMonths completed_at.date k).year
      omega
    · exact hb.1
    · exact hb.2.1
    · show 1 ≤ min dom (daysInMonth (addMonths completed_at.date k).year
        (addMonths completed_at.date k).month)
      omega

end Generator

/-- C3: when the target day-of-month does not exist in the month being
placed, the monthly rule substitutes the last day of that month (28 or 29
for February depending on leap year) rather than failing, and re-applying
the generator with the returned date as new anchor and the same interval
advances by exactly one further month-cycle with the same clamping rule;
the polling calculator applies the same February fallback. -/
theorem C3_monthly_clamping (completed_at : DateTime) (k dom : Nat) (orig : Option DateTime)
    (hy : 1 ≤ completed_at.date.year) (hm1 : 1 ≤ completed_at.date.month)
    (hd1 : 1 ≤ completed_at.date.day) (h1 : 1 ≤ dom) (h31 : dom ≤ 31) :
    (∀ r, Generator.calculate_monthly completed_at k (some dom) orig = some r →
      monthIdx r.date = monthIdx completed_at.date + k ∧
      r.date.day = min dom (daysInMonth r.date.year r.date.month) ∧
      (r.date.month = 2 → dom = 31 →
        r.date.day = if isLeap r.date.year then 29 else 28) ∧
      ∀ r2, Generator.calculate_monthly r k (some dom) orig = some r2 →
        monthIdx r2.date = monthIdx r.date + k ∧
        r2.date.day = min dom (daysInMonth r2.date.year r2.date.month)) ∧
    (∀ anchor now : DateTime, anchor.date.day = 31 → now.Valid → now.date.month = 2 →
      now.absSec <
        (⟨⟨now.date.year, 2, daysInMonth now.date.year 2⟩, anchor.tod⟩ : DateTime).absSec →
      ReminderCalculator.calculate_monthly anchor now =
        ⟨⟨now.date.year, 2, if isLeap now.date.year then 29 else 28⟩, anchor.tod⟩) := by
  constructor
  · obtain ⟨r0, he0, hp1, hp2, hb1, hb2, hb3, hb4⟩ :=
      Generator.calculate_monthly_spec completed_at k dom orig hy hm1 hd1 h1 h31
    intro r hr
    rw [he0, Option.some.injEq] at hr
    subst hr
    refine ⟨hp1, hp2, ?_, ?_⟩
    · intro hm2 hdom
      subst hdom
      rw [hm2] at hp2
      rw [hp2, daysInMonth_feb]
      split <;> decide
    · obtain ⟨r2, he2, hq1, hq2, _, _, _, _⟩ :=
        Generator.calculate_monthly_spec r0 k dom orig hb1 hb2 hb4 h1 h31
      intro r2x hr2
      rw [he2, Option.some.injEq] at hr2
      subst hr2
      exact ⟨hq1, hq2⟩
  · intro anchor now hday hn hfeb hfut
    obtain ⟨hnd, hnt⟩ := hn
    obtain ⟨hy2, hm12, hm22, hd12, hd22⟩ := hnd
    have hdim2 : daysInMonth now.date.year now.date.month ≤ 29 := by
      rw [hfeb, daysInMonth_feb]
      split <;> omega
    simp only [ReminderCalculator.calculate_monthly]
    rw [if_neg (show ¬ anchor.date.day ≤ daysInMonth now.date.year now.date.month from
      by omega)]
    rw [prevDay_addMonths_one now.date.year now.date.month hy2 hm12 hm22]
    rw [hfeb]
    rw [if_pos hfut]
    rw [daysInMonth_feb]

/-- Witness for C3: day-of-month 31 anchored in mid-January 2025 with
interval one lands on the last day of February. -/
theorem C3_monthly_clamping_witness :
    ((∀ r, Generator.calculate_monthly ⟨⟨2025, 1, 15⟩, 30000⟩ 1 (some 31) none = some r →
      monthIdx r.date = monthIdx (⟨2025, 1, 15⟩ : Date) + 1 ∧
      r.date.day = min 31 (daysInMonth r.date.year r.date.month) ∧
      (r.date.month = 2 → (31 : Nat) = 31 →
        r.date.day = if isLeap r.date.year then 29 else 28) ∧
      ∀ r2, Generator.calculate_monthly r 1 (some 31) none = some r2 →
        monthIdx r2.date = monthIdx r.date + 1 ∧
        r2.date.day = min 31 (daysInMonth r2.date.year r2.date.month)) ∧
    (∀ anchor now : DateTime, anchor.date.day = 31 → now.Valid → now.date.month = 2 →
      now.absSec <
        (⟨⟨now.date.year, 2, daysInMonth now.date.year 2⟩, anchor.tod⟩ : DateTime).absSec →
      ReminderCalculator.calculate_monthly anchor now =
        ⟨⟨now.date.year, 2, if isLeap now.date.year then 29 else 28⟩, anchor.tod⟩)) :=
  C3_monthly_clamping ⟨⟨2025, 1, 15⟩, 30000⟩ 1 31 none
    (by decide) (by decide) (by decide) (by decide) (by decide)

/-- C8: a candidate occurrence timestamp exactly equal to `now` counts as
passed (`candidate <= now`, not `<`): the daily rule advances to the next
day, the weekly rule (today being the target weekday) advances one week,
and the monthly rule advances into the following month, instead of
returning the boundary timestamp as a future occurrence. -/
theorem C8_boundary_counts_as_passed (reminder_time now : DateTime)
    (hav : reminder_time.Valid) (hn : now.Valid)
    (htod : reminder_time.tod = now.tod)
    (hwd : weekday reminder_time.date = weekday now.date)
    (hday : reminder_time.date.day = now.date.day) :
    ReminderCalculator.calculate_daily reminder_time now
        = ⟨addDays now.date 1, reminder_time.tod⟩ ∧
      ReminderCalculator.calculate_weekly reminder_time now
        = ⟨addDays now.date 7, reminder_time.tod⟩ ∧
      monthIdx (ReminderCalculator.calculate_monthly reminder_time now).date
        = monthIdx now.date + 1 ∧
      now.absSec < (ReminderCalculator.calculate_monthly reminder_time now).absSec := by
  have hcand : (⟨now.date, reminder_time.tod⟩ : DateTime).absSec = now.absSec := by
    rw [htod]
  refine ⟨?_, ?_, ?_, ?_⟩
  · simp only [ReminderCalculator.calculate_daily]
    rw [hcand, if_neg (lt_irrefl _)]
  · simp only [ReminderCalculator.calculate_weekly]
    have hdu : (((weekday reminder_time.date : Int) - (weekday now.date : Int)) % 7).toNat
        = 0 := by
      rw [hwd]
      simp
    rw [if_pos hdu, hcand, if_neg (lt_irrefl _)]
  · simp only [ReminderCalculator.calculate_monthly]
    rw [if_pos (show reminder_time.date.day ≤ daysInMonth now.date.year now.date.month from
      by rw [hday]; exact hn.1.2.2.2.2)]
    have hcand2 :
        (⟨⟨now.date.year, now.date.month, reminder_time.date.day⟩, reminder_time.tod⟩
          : DateTime).absSec = now.absSec := by
      rw [hday, htod]
    rw [hcand2, if_neg (lt_irrefl _)]
    have hnm := ReminderCalculator.next_month_date_spec reminder_time.date.day now.date
      hn.1 hav.1.2.2.2.1
    exact hnm.2
  · exact ReminderCalculator.calculate_monthly_gt reminder_time now
      hav.1.2.2.2.1 hn

/-- Witness for C8: with anchor and reference both at 2025-01-15 09:00 the
daily rule yields 2025-01-16, the weekly rule 2025-01-22, and the monthly
rule a date in February. -/
theorem C8_boundary_counts_as_passed_witness :
    ReminderCalculator.calculate_daily ⟨⟨2025, 1, 15⟩, 32400⟩ ⟨⟨2025, 1, 15⟩, 32400⟩
        = ⟨addDays ⟨2025, 1, 15⟩ 1, 32400⟩ ∧
      ReminderCalculator.calculate_weekly ⟨⟨2025, 1, 15⟩, 32400⟩ ⟨⟨2025, 1, 15⟩, 32400⟩
        = ⟨addDays ⟨2025, 1, 15⟩ 7, 32400⟩ ∧
      monthIdx (ReminderCalculator.calculate_monthly ⟨⟨2025, 1, 15⟩, 32400⟩
          ⟨⟨2025, 1, 15⟩, 32400⟩).date
        = monthIdx (⟨2025, 1, 15⟩ : Date) + 1 ∧
      (⟨⟨2025, 1, 15⟩, 32400⟩ : DateTime).absSec
        < (ReminderCalculator.calculate_monthly ⟨⟨2025, 1, 15⟩, 32400⟩
            ⟨⟨2025, 1, 15⟩, 32400⟩).absSec :=
  C8_boundary_counts_as_passed ⟨⟨2025, 1, 15⟩, 32400⟩ ⟨⟨2025, 1, 15⟩, 32400⟩
    (by decide) (by decide) rfl rfl rfl

/-- C4 counterexample: in the event-driven generator, with target weekday
set {Wednesday} and interval 1, a reference (completion) on Wednesday
2025-01-15 at 08:00 whose anchor time-of-day 09:00 has not yet passed does
not yield that same day at 09:00: the generator returns the following
Wednesday 2025-01-22, refuting the same-day clause for that realization. -/
theorem C4_weekly_counterexample :
    Generator.calculate_weekly ⟨⟨2025, 1, 15⟩, 28800⟩ 1 [2] (some ⟨⟨2025, 1, 8⟩, 32400⟩)
        = some ⟨⟨2025, 1, 22⟩, 32400⟩ ∧
      weekday ⟨2025, 1, 15⟩ = 2 ∧ (28800 : Nat) < 32400 ∧
      (⟨⟨2025, 1, 22⟩, 32400⟩ : DateTime) ≠ ⟨⟨2025, 1, 15⟩, 32400⟩ :=
  ⟨by decide, by decide, by decide, by decide⟩

/-- C4 amended: the polling calculator returns the reference day at the
anchor's time-of-day when the weekday matches and the time has not yet
passed, and one week later when it has passed; the event-driven generator
ignores the time-of-day and never returns the reference day: with target
weekdays {Monday, Wednesday} and the reference on a Wednesday it wraps to
the following Monday, `5 + (interval - 1) * 7` days later. -/
theorem C4_weekly_amended (reminder_time now completed_at : DateTime)
    (interval : Nat) (orig : Option DateTime)
    (hn : now.Valid) (hwd : weekday reminder_time.date = weekday now.date)
    (hc : completed_at.date.Valid) (hcw : weekday completed_at.date = 2) :
    (now.tod < reminder_time.tod →
      ReminderCalculator.calculate_weekly reminder_time now
        = ⟨now.date, reminder_time.tod⟩) ∧
    (reminder_time.tod ≤ now.tod →
      ReminderCalculator.calculate_weekly reminder_time now
        = ⟨addDays now.date 7, reminder_time.tod⟩) ∧
    (∃ r, Generator.calculate_weekly completed_at interval [0, 2] orig = some r ∧
      r.date = addDays completed_at.date
        (if 1 < interval then 5 + (interval - 1) * 7 else 5) ∧
      weekday r.date = 0) := by
  have hdu : (((weekday reminder_time.date : Int) - (weekday now.date : Int)) % 7).toNat
      = 0 := by
    rw [hwd]
    simp
  refine ⟨?_, ?_, ?_⟩
  · intro htod
    simp only [ReminderCalculator.calculate_weekly]
    rw [if_pos hdu, if_pos (show now.absSec
        < (⟨now.date, reminder_time.tod⟩ : DateTime).absSec from by
      simp only [DateTime.absSec_mk, DateTime.absSec]
      omega)]
  · intro htod
    simp only [ReminderCalculator.calculate_weekly]
    rw [if_pos hdu, if_neg (show ¬ now.absSec
        < (⟨now.date, reminder_time.tod⟩ : DateTime).absSec from by
      simp only [DateTime.absSec_mk, DateTime.absSec]
      omega)]
  · simp only [Generator.calculate_weekly]
    rw [if_neg (by simp)]
    rw [show Generator.sortNat [0, 2] = [0, 2] from rfl]
    rw [hcw]
    rw [show List.find? (fun day => decide (2 < day)) [0, 2] = none from rfl]
    refine ⟨_, rfl, ?_, ?_⟩
    · cases orig <;> simp
    · have hwk := weekday_addDays completed_at.date hc
        (if 1 < interval then 7 - 2 + 0 + (interval - 1) * 7 else 7 - 2 + 0)
      cases orig <;> simp <;> rw [hwk, hcw] <;> split <;> omega

/-- Witness for C4: Monday anchor 09:00 against Monday 08:00 stays on the
same day, and the generator from a Wednesday with targets {Monday,
Wednesday} lands five days later on a Monday. -/
theorem C4_weekly_amended_witness :
    ((28800 : Nat) < 32400 →
      ReminderCalculator.calculate_weekly ⟨⟨2025, 1, 13⟩, 32400⟩ ⟨⟨2025, 1, 13⟩, 28800⟩
        = ⟨⟨2025, 1, 13⟩, 32400⟩) ∧
    ((32400 : Nat) ≤ 28800 →
      ReminderCalculator.calculate_weekly ⟨⟨2025, 1, 13⟩, 32400⟩ ⟨⟨2025, 1, 13⟩, 28800⟩
        = ⟨addDays ⟨2025, 1, 13⟩ 7, 32400⟩) ∧
    (∃ r, Generator.calculate_weekly ⟨⟨2025, 1, 15⟩, 28800⟩ 1 [0, 2] none = some r ∧
      r.date = addDays ⟨2025, 1, 15⟩ (if 1 < 1 then 5 + (1 - 1) * 7 else 5) ∧
      weekday r.date = 0) :=
  C4_weekly_amended ⟨⟨2025, 1, 13⟩, 32400⟩ ⟨⟨2025, 1, 13⟩, 28800⟩ ⟨⟨2025, 1, 15⟩, 28800⟩
    1 none (by decide) (by decide) (by decide) (by decide)
